import Mathlib

/-!
Shallow embedding of the printer-agent job queue (src/agent.py): the job
store, the payload encoder, the dispatch step with its retry policy, the
startup recovery loader, and the HTTP-facing admission and reprint
operations, together with theorems settling the specification claims.
-/

namespace PrinterAgent

/-- Job status values stored in the `status` column of `print_jobs`
(the source writes the literals queued, processing, done, error). -/
inductive Status where
  | queued
  | processing
  | done
  | error
deriving DecidableEq, Repr

/-- The optional delivery target carried inside a payload
(the printer key of the JSON payload dict, with host and port keys). -/
structure PrinterTarget where
  host : Option String := none
  port : Option Nat := none
deriving DecidableEq, Repr

/-- A job payload as used by process_job: the JSON dict with keys mode,
text, raw_bytes_base64 and printer. String-valued fields are modelled as
Option String (absent key = none). -/
structure Payload where
  mode : Option String := none
  text : Option String := none
  raw_bytes_base64 : Option String := none
  printer : Option PrinterTarget := none
deriving DecidableEq, Repr

/-- One row of the print_jobs table. -/
structure Job where
  payload : Payload
  status : Status
  attempts : Nat
  last_error : Option String
  created_at : Nat
  updated_at : Nat
deriving DecidableEq, Repr

/-- The print_jobs table: rows keyed by the integer primary key, plus the
next AUTOINCREMENT id (sqlite assigns ids 1, 2, ...). -/
structure Store where
  rows : List (Nat × Job)
  nextId : Nat
deriving DecidableEq, Repr

/-- Row lookup by primary key (SELECT ... WHERE id=?). -/
def Store.find? (st : Store) (id : Nat) : Option Job :=
  st.rows.lookup id

/-- Primary keys of all rows are below nextId: the AUTOINCREMENT
invariant that every state reachable from the fresh database satisfies. -/
def Store.wfB (st : Store) : Bool :=
  st.rows.all (fun r => r.1 < st.nextId)

/-- Combined in-process state: the sqlite store plus the in-memory
job_queue of ids (FIFO: put appends at the tail). -/
structure AgentState where
  store : Store
  queue : List Nat
deriving DecidableEq, Repr

/-- The fresh state: empty table (first AUTOINCREMENT id is 1) and an
empty work queue. -/
def emptyState : AgentState := ⟨⟨[], 1⟩, []⟩

/-- Process-wide configuration read from the environment:
PRINTER_HOST (default empty) and PRINTER_PORT (default 9100). -/
structure Config where
  defaultHost : String := ""
  defaultPort : Nat := 9100

/-- Python truthiness of an optional string field fetched with dict.get:
a missing key and the empty string are falsy. -/
def truthyStr : Option String → Bool
  | some s => !(s == "")
  | none => false

/-- The UTF-8 encoding of one character (standard encoding, as performed by
str.encode in the source). Bytes are Nat values below 256. -/
def utf8Char (c : Char) : List Nat :=
  let n := c.toNat
  if n < 0x80 then [n]
  else if n < 0x800 then [0xC0 + n / 64, 0x80 + n % 64]
  else if n < 0x10000 then
    [0xE0 + n / 4096, 0x80 + (n / 64) % 64, 0x80 + n % 64]
  else
    [0xF0 + n / 262144, 0x80 + (n / 4096) % 64, 0x80 + (n / 64) % 64,
      0x80 + n % 64]

/-- The UTF-8 encoding of a string (text.encode in the source). -/
def utf8 (s : String) : List Nat :=
  (s.data.map utf8Char).flatten

/-- Value of one character of the base64 alphabet, none for a character
outside the alphabet. -/
def b64Char (c : Char) : Option Nat :=
  if 'A' ≤ c ∧ c ≤ 'Z' then some (c.toNat - 65)
  else if 'a' ≤ c ∧ c ≤ 'z' then some (c.toNat - 71)
  else if '0' ≤ c ∧ c ≤ '9' then some (c.toNat + 4)
  else if c = '+' then some 62
  else if c = '/' then some 63
  else none

/-- Decode base64 characters in groups of four, honouring trailing
padding. Returns none on a malformed input. -/
def b64Groups : List Char → Option (List Nat)
  | [] => some []
  | a :: b :: c :: d :: rest => do
    let x ← b64Char a
    let y ← b64Char b
    if c = '=' ∧ d = '=' ∧ rest = [] then
      some [x * 4 + y / 16]
    else do
      let z ← b64Char c
      if d = '=' ∧ rest = [] then
        some [x * 4 + y / 16, y % 16 * 16 + z / 4]
      else do
        let w ← b64Char d
        let tail ← b64Groups rest
        some ((x * 4 + y / 16) :: (y % 16 * 16 + z / 4) :: (z % 4 * 64 + w) :: tail)
  | _ => none

/-- Modelled from the Python standard library: base64.b64decode on an
ASCII string, returning the decoded bytes or none on a malformed blob
(the library raises binascii.Error there). -/
def b64decode (s : String) : Option (List Nat) :=
  b64Groups s.data

/-- Modelled from the Python standard library: the message of the
binascii.Error raised by a failing b64decode. No claim relies on its
exact content. -/
def b64ErrorMsg : String := "Invalid base64-encoded string"

/-- render_text_to_escpos_bytes (src/agent.py lines 112-124) restricted
to string input, its type on every payload built from a JSON text field:
UTF-8 data, the newline byte, then the three cut bytes written in the
source as the bytes literal x1d V 1. -/
def render_text_to_escpos_bytes (text : String) : List Nat :=
  utf8 text ++ [Char.toNat '\n'] ++ [0x1d, Char.toNat 'V', Char.toNat '1']

/-- enqueue_job_db (src/agent.py lines 55-65): INSERT a new row with
status queued, attempts 0, created_at = updated_at = now, then put the
fresh id on the in-memory queue; returns the id (cur.lastrowid). -/
def enqueue_job_db (p : Payload) (now : Nat) (st : AgentState) :
    Nat × AgentState :=
  let id := st.store.nextId
  let job : Job := ⟨p, .queued, 0, none, now, now⟩
  (id, ⟨⟨st.store.rows ++ [(id, job)], id + 1⟩, st.queue ++ [id]⟩)

/-- The projection of a row returned by fetch_job (src/agent.py lines
67-75): it SELECTs only id, payload, status and attempts. -/
structure FetchedJob where
  id : Nat
  payload : Payload
  status : Status
  attempts : Nat
deriving DecidableEq, Repr

/-- fetch_job (src/agent.py lines 67-75): row lookup returning the
four selected columns, or none when the id does not exist. -/
def fetch_job (st : Store) (id : Nat) : Option FetchedJob :=
  (st.find? id).map (fun j => ⟨id, j.payload, j.status, j.attempts⟩)

/-- The keyword arguments accepted by update_job: each field present is
written by the generated UPDATE statement; last_error may be set to SQL
NULL (some none). -/
structure JobUpdate where
  status : Option Status := none
  attempts : Option Nat := none
  last_error : Option (Option String) := none
deriving DecidableEq, Repr

/-- Apply one UPDATE to a row: each supplied field overwrites the column,
and updated_at is always set to now. -/
def applyUpdate (u : JobUpdate) (now : Nat) (j : Job) : Job :=
  { j with
    status := u.status.getD j.status
    attempts := u.attempts.getD j.attempts
    last_error := u.last_error.getD j.last_error
    updated_at := now }

/-- update_job (src/agent.py lines 77-91): UPDATE print_jobs SET fields,
updated_at WHERE id=?. A missing id matches zero rows and the call
returns silently. -/
def update_job (id : Nat) (u : JobUpdate) (now : Nat) (st : Store) :
    Store :=
  { st with
    rows := st.rows.map
      (fun r => if r.1 = id then (r.1, applyUpdate u now r.2) else r) }

/-- Resolve the delivery host as process_job does (src/agent.py lines
133-134): the payload printer dict if the key is present, else the
default pair; then the host entry if truthy, else the default host. -/
def resolveHost (cfg : Config) (p : Payload) : String :=
  let printer := p.printer.getD ⟨some cfg.defaultHost, some cfg.defaultPort⟩
  match printer.host with
  | some h => if h = "" then cfg.defaultHost else h
  | none => cfg.defaultHost

/-- The environment of one dispatch attempt: the outcome the transport
would report (none = success, some err = the error text of the raised
exception), for the network and for the file branch, and the two clock
readings taken by the two update_job calls. -/
structure Eff where
  netResult : Option String := none
  fileResult : Option String := none
  t1 : Nat := 0
  t2 : Nat := 0

/-- The result of one process_job call: the final state, the byte buffer
handed to the delivery transport (none when encoding raised before any
transport call), and the status values written to this row by the
update_job calls, in order. -/
structure StepResult where
  state : AgentState
  sent : Option (List Nat)
  writes : List Status
deriving Repr

/-- process_job (src/agent.py lines 126-162). The queue field of st is
the queue as seen after the worker popped id. Control flow follows the
source: fetch, set processing and attempts+1, encode (base64 decode in
raw mode with a truthy blob, otherwise the text renderer on the text
field or the placeholder), deliver via network when a host resolves else
via file, then set done, or on any raised error set error and re-enqueue
while the pre-increment attempts counter is below 3. -/
def process_job (cfg : Config) (id : Nat) (eff : Eff) (st : AgentState) :
    StepResult :=
  match fetch_job st.store id with
  | none => ⟨st, none, []⟩
  | some job =>
    let payload := job.payload
    let attempts := job.attempts
    let host := resolveHost cfg payload
    let mode := payload.mode.getD "text"
    let st1 := update_job id ⟨some .processing, some (attempts + 1), none⟩
      eff.t1 st.store
    let encoded : Except String (List Nat) :=
      if mode = "raw" ∧ truthyStr payload.raw_bytes_base64 then
        match b64decode (payload.raw_bytes_base64.getD "") with
        | some bs => .ok bs
        | none => .error b64ErrorMsg
      else
        .ok (render_text_to_escpos_bytes (payload.text.getD "<no text>"))
    match encoded with
    | .error e =>
      let st2 := update_job id ⟨some .error, none, some (some e)⟩ eff.t2 st1
      let q := if attempts < 3 then st.queue ++ [id] else st.queue
      ⟨⟨st2, q⟩, none, [.processing, .error]⟩
    | .ok data =>
      let outcome : Option String :=
        if host = "" then eff.fileResult
        else eff.netResult.map (fun e => "Network print failed: " ++ e)
      match outcome with
      | none =>
        let st2 := update_job id ⟨some .done, none, some none⟩ eff.t2 st1
        ⟨⟨st2, st.queue⟩, some data, [.processing, .done]⟩
      | some e =>
        let st2 := update_job id ⟨some .error, none, some (some e)⟩ eff.t2 st1
        let q := if attempts < 3 then st.queue ++ [id] else st.queue
        ⟨⟨st2, q⟩, some data, [.processing, .error]⟩

/-- worker_loop (src/agent.py lines 164-172) unrolled over a list of
per-iteration environments: pop the head id and process it; stop when the
queue is empty or the environments run out. -/
def worker (cfg : Config) : List Eff → AgentState → AgentState
  | [], st => st
  | e :: rest, st =>
    match st.queue with
    | [] => st
    | id :: q => worker cfg rest (process_job cfg id e ⟨st.store, q⟩).state

/-- The status values written to the store over a worker run, in order
(the per-step writes concatenated). -/
def workerWrites (cfg : Config) : List Eff → AgentState → List Status
  | [], _ => []
  | e :: rest, st =>
    match st.queue with
    | [] => []
    | id :: q =>
      let r := process_job cfg id e ⟨st.store, q⟩
      r.writes ++ workerWrites cfg rest r.state

/-- Comparison used by the ORDER BY created_at ASC clause. -/
def byCreatedAt (a b : Nat × Job) : Prop :=
  a.2.created_at ≤ b.2.created_at

instance : DecidableRel byCreatedAt :=
  fun a b => Nat.decLe a.2.created_at b.2.created_at

instance : IsTotal (Nat × Job) byCreatedAt :=
  ⟨fun a b => Nat.le_total a.2.created_at b.2.created_at⟩

instance : IsTrans (Nat × Job) byCreatedAt :=
  ⟨fun _ _ _ => Nat.le_trans⟩

/-- load_pending_jobs_into_queue sorted SELECT (src/agent.py line 178):
rows with status queued or error, ordered by created_at ascending
(insertion sort is stable, matching sqlite scanning in rowid order). -/
def sortedPending (st : Store) : List (Nat × Job) :=
  List.insertionSort byCreatedAt
    (st.rows.filter (fun r => r.2.status == .queued || r.2.status == .error))

/-- load_pending_jobs_into_queue (src/agent.py lines 175-182): put each
selected id on the work queue; the store itself is only read. -/
def load_pending_jobs_into_queue (st : AgentState) : AgentState :=
  ⟨st.store, st.queue ++ (sortedPending st.store).map Prod.fst⟩

/-- print_endpoint admission (src/agent.py lines 208-219) after JSON
parsing: reject when neither the text nor the raw_bytes_base64 entry is
truthy, else persist via enqueue_job_db and return the new id. -/
def print_endpoint (p : Payload) (now : Nat) (st : AgentState) :
    Except String (Nat × AgentState) :=
  if !truthyStr p.text && !truthyStr p.raw_bytes_base64 then
    .error "no text or raw bytes provided"
  else
    .ok (enqueue_job_db p now st)

/-- reprint (src/agent.py lines 221-231): fetch the original job, answer
not found when absent, else enqueue a brand-new job carrying the same
payload. -/
def reprint (id : Nat) (now : Nat) (st : AgentState) :
    Except String (Nat × AgentState) :=
  match fetch_job st.store id with
  | none => .error "not found"
  | some job => .ok (enqueue_job_db job.payload now st)

/-- Bool check that every adjacent pair of a status history satisfies the
edge relation r. -/
def chainHolds (r : Status → Status → Bool) : List Status → Bool
  | [] => true
  | [_] => true
  | a :: b :: rest => r a b && chainHolds r (b :: rest)

/-- The transition edges asserted by the specification state machine:
queued to processing, processing to done, processing to error, and error
back to queued. -/
def claimedEdge (a b : Status) : Bool :=
  (a == .queued && b == .processing) || (a == .processing && b == .done) ||
    (a == .processing && b == .error) || (a == .error && b == .queued)

/-- The transition edges the dispatch code actually writes: a retried job
goes from error directly to processing, and nothing ever writes queued
after admission. -/
def actualEdge (a b : Status) : Bool :=
  ((a == .queued || a == .error) && b == .processing) ||
    (a == .processing && (b == .done || b == .error))

/-- Configuration with no PRINTER_HOST configured (the defaults). -/
def cfgDefault : Config := {}

/-- A text payload targeted at a network printer host. -/
def failingPayload (text : String) : Payload :=
  { text := some text, printer := some ⟨some "10.0.0.1", some 9100⟩ }

/-- The spec scenario payload: text Hi targeted at an unreachable
network printer. -/
def unreachablePayload : Payload :=
  { text := some "Hi", printer := some ⟨some "10.0.0.1", some 9100⟩ }

/-- A dispatch environment whose network write always fails. -/
def failEff : Eff := { netResult := some "timed out" }

/-- The state after admitting unreachablePayload into the fresh agent. -/
def startState : AgentState :=
  (enqueue_job_db unreachablePayload 0 emptyState).2

/-- Run the worker for n iterations from startState, every delivery
failing. -/
def failRun (n : Nat) : AgentState :=
  worker cfgDefault (List.replicate n failEff) startState

/-! Helper lemmas about row lookup under the UPDATE and INSERT shapes
used by the store operations. -/

lemma lookup_map_update (id : Nat) (g : Job → Job)
    (rows : List (Nat × Job)) :
    (rows.map (fun r => if r.1 = id then (r.1, g r.2) else r)).lookup id
      = (rows.lookup id).map g := by
  induction rows with
  | nil => rfl
  | cons r rest ih =>
    obtain ⟨k, j⟩ := r
    by_cases hk : k = id
    · subst hk
      simp [List.lookup_cons]
    · have hb : (id == k) = false := beq_eq_false_iff_ne.mpr (Ne.symm hk)
      simp [List.lookup_cons, hk, hb, ih]

lemma lookup_map_update_ne (id id2 : Nat) (g : Job → Job)
    (rows : List (Nat × Job)) (hne : id2 ≠ id) :
    (rows.map (fun r => if r.1 = id then (r.1, g r.2) else r)).lookup id2
      = rows.lookup id2 := by
  induction rows with
  | nil => rfl
  | cons r rest ih =>
    obtain ⟨k, j⟩ := r
    by_cases h2 : id2 = k
    · subst h2
      simp [List.lookup_cons, hne]
    · have hb : (id2 == k) = false := beq_eq_false_iff_ne.mpr h2
      by_cases hk : k = id
      · subst hk
        simp [List.lookup_cons, hb, ih]
      · simp [List.lookup_cons, hk, hb, ih]

lemma map_update_of_lookup_none (id : Nat) (g : Job → Job)
    (rows : List (Nat × Job)) (h : rows.lookup id = none) :
    rows.map (fun r => if r.1 = id then (r.1, g r.2) else r) = rows := by
  induction rows with
  | nil => rfl
  | cons r rest ih =>
    obtain ⟨k, j⟩ := r
    by_cases hk : k = id
    · subst hk
      simp [List.lookup_cons] at h
    · have hb : (id == k) = false := beq_eq_false_iff_ne.mpr (Ne.symm hk)
      rw [List.lookup_cons, hb] at h
      simp [hk, ih h]

lemma find?_update_self (id : Nat) (u : JobUpdate) (now : Nat) (st : Store) :
    (update_job id u now st).find? id
      = (st.find? id).map (applyUpdate u now) := by
  simpa [update_job, Store.find?] using
    lookup_map_update id (applyUpdate u now) st.rows

lemma find?_update_ne (id id2 : Nat) (u : JobUpdate) (now : Nat)
    (st : Store) (hne : id2 ≠ id) :
    (update_job id u now st).find? id2 = st.find? id2 := by
  simpa [update_job, Store.find?] using
    lookup_map_update_ne id id2 (applyUpdate u now) st.rows hne

lemma update_job_missing (id : Nat) (u : JobUpdate) (now : Nat) (st : Store)
    (h : st.find? id = none) :
    update_job id u now st = st := by
  unfold update_job
  cases st with
  | mk rows nextId =>
    simp only [Store.mk.injEq, and_true]
    exact map_update_of_lookup_none id (applyUpdate u now) rows h

lemma lookup_lt_of_all (rows : List (Nat × Job)) (n id : Nat) (j : Job)
    (hall : rows.all (fun r => r.1 < n) = true)
    (h : rows.lookup id = some j) : id < n := by
  induction rows with
  | nil => simp at h
  | cons r rest ih =>
    obtain ⟨k, v⟩ := r
    simp only [List.all_cons, Bool.and_eq_true, decide_eq_true_eq] at hall
    by_cases hk : id = k
    · subst hk
      exact hall.1
    · have hb : (id == k) = false := beq_eq_false_iff_ne.mpr hk
      rw [List.lookup_cons, hb] at h
      exact ih (by simpa using hall.2) h

lemma lookup_none_of_all_lt (rows : List (Nat × Job)) (n : Nat)
    (hall : rows.all (fun r => r.1 < n) = true) :
    rows.lookup n = none := by
  induction rows with
  | nil => rfl
  | cons r rest ih =>
    obtain ⟨k, v⟩ := r
    simp only [List.all_cons, Bool.and_eq_true, decide_eq_true_eq] at hall
    have hne : n ≠ k := fun hnk => absurd hall.1 (by simp [hnk])
    have hb : (n == k) = false := beq_eq_false_iff_ne.mpr hne
    rw [List.lookup_cons, hb]
    exact ih (by simpa using hall.2)

lemma lookup_append_ne (rows : List (Nat × Job)) (id nid : Nat) (j : Job)
    (h : id ≠ nid) :
    (rows ++ [(nid, j)]).lookup id = rows.lookup id := by
  induction rows with
  | nil =>
    have hb : (id == nid) = false := beq_eq_false_iff_ne.mpr h
    simp [List.lookup_cons, hb]
  | cons r rest ih =>
    obtain ⟨k, v⟩ := r
    by_cases hk : id = k
    · subst hk
      simp [List.lookup_cons]
    · have hb : (id == k) = false := beq_eq_false_iff_ne.mpr hk
      rw [List.cons_append, List.lookup_cons, hb, List.lookup_cons, hb, ih]

lemma lookup_append_self (rows : List (Nat × Job)) (nid : Nat) (j : Job)
    (hnone : rows.lookup nid = none) :
    (rows ++ [(nid, j)]).lookup nid = some j := by
  induction rows with
  | nil => simp
  | cons r rest ih =>
    obtain ⟨k, v⟩ := r
    by_cases hk : nid = k
    · subst hk
      simp at hnone
    · have hb : (nid == k) = false := beq_eq_false_iff_ne.mpr hk
      rw [List.lookup_cons, hb] at hnone
      rw [List.cons_append, List.lookup_cons, hb]
      exact ih hnone

lemma failing_net_step (cfg : Config) (p : Payload) (err : String)
    (fr : Option String) (t1 t2 id n a ca ua : Nat) (s : Status)
    (le : Option String) (q : List Nat)
    (hhost : resolveHost cfg p ≠ "")
    (hmode : ¬ (p.mode.getD "text" = "raw" ∧ truthyStr p.raw_bytes_base64)) :
    process_job cfg id ⟨some err, fr, t1, t2⟩
        ⟨⟨[(id, ⟨p, s, a, le, ca, ua⟩)], n⟩, q⟩
      = ⟨⟨⟨[(id, ⟨p, .error, a + 1,
              some ("Network print failed: " ++ err), ca, t2⟩)], n⟩,
          if a < 3 then q ++ [id] else q⟩,
        some (render_text_to_escpos_bytes (p.text.getD "<no text>")),
        [.processing, .error]⟩ := by
  simp [process_job, fetch_job, Store.find?, update_job, applyUpdate,
    hhost, hmode]

/-- C1 counterexample: the job of the spec scenario (text Hi, unreachable
host 10.0.0.1) whose delivery fails on every attempt is still re-enqueued
after its third failed attempt and reaches terminal error (empty queue,
no further re-enqueue) with a stored attempts counter of 4, not 3. -/
theorem retryCapCounterexample :
    (failRun 4).store.find? 1
      = some ⟨unreachablePayload, .error, 4,
          some "Network print failed: timed out", 0, 0⟩
  ∧ (failRun 4).queue = []
  ∧ (failRun 3).queue = [1]
  ∧ ((failRun 4).store.find? 1).map Job.attempts ≠ some 3 := by
  refine ⟨rfl, rfl, rfl, ?_⟩
  have h4 : ((failRun 4).store.find? 1).map Job.attempts = some 4 := rfl
  rw [h4]
  decide

/-- C1 amended: for every text and every network error, a job whose
delivery fails on every attempt is re-enqueued exactly while the
pre-increment attempts counter is below 3, so it reaches terminal error
after 4 attempts, with attempts stored as 4 and a non-empty last_error. -/
theorem retryExhaustionAmended (text err : String) :
    worker cfgDefault (List.replicate 4 ⟨some err, none, 0, 0⟩)
        (enqueue_job_db (failingPayload text) 0 emptyState).2
      = ⟨⟨[(1, ⟨failingPayload text, .error, 4,
            some ("Network print failed: " ++ err), 0, 0⟩)], 2⟩, []⟩
  ∧ ("Network print failed: " ++ err) ≠ "" := by
  have hhost : resolveHost cfgDefault (failingPayload text) ≠ "" := by
    simp [resolveHost, cfgDefault, failingPayload]
  have hmode : ¬ ((failingPayload text).mode.getD "text" = "raw"
      ∧ truthyStr (failingPayload text).raw_bytes_base64) := by
    simp [failingPayload, truthyStr]
  have hs := fun (a : Nat) (s : Status) (le : Option String) (q : List Nat) =>
    failing_net_step cfgDefault (failingPayload text) err none 0 0 1 2 a
      0 0 s le q hhost hmode
  constructor
  · show worker cfgDefault [⟨some err, none, 0, 0⟩, ⟨some err, none, 0, 0⟩,
        ⟨some err, none, 0, 0⟩, ⟨some err, none, 0, 0⟩]
        ⟨⟨[(1, ⟨failingPayload text, .queued, 0, none, 0, 0⟩)], 2⟩, [1]⟩ = _
    simp only [worker]
    rw [hs 0 .queued none []]
    norm_num
    rw [hs 1 .error (some ("Network print failed: " ++ err)) []]
    norm_num
    rw [hs 2 .error (some ("Network print failed: " ++ err)) []]
    norm_num
    rw [hs 3 .error (some ("Network print failed: " ++ err)) []]
    norm_num
  · intro h
    have hlen := congrArg String.length h
    simp [String.length_append] at hlen
    exact absurd hlen.1 (by decide)

/-- C2 counterexample: over a run with two failed deliveries, the stored
status history of the admitted job is queued, processing, error,
processing, error: the retried job moves from error directly to
processing, so the history violates the edge set claimed by the spec
(which requires error to return to queued first). -/
theorem statusEdgesCounterexample :
    Status.queued :: workerWrites cfgDefault [failEff, failEff] startState
      = [.queued, .processing, .error, .processing, .error]
  ∧ chainHolds claimedEdge
      [.queued, .processing, .error, .processing, .error] = false :=
  ⟨rfl, rfl⟩

/-- C2 amended: from a job whose stored status is queued or error, one
dispatch writes exactly processing then done, or processing then error:
the observed edges are queued to processing, error to processing,
processing to done and processing to error; no write ever sets queued,
and when the job is re-enqueued for retry its stored status is error. -/
theorem dispatchTransitionsAmended (cfg : Config) (id : Nat) (eff : Eff)
    (st : AgentState) (job : FetchedJob)
    (hfetch : fetch_job st.store id = some job)
    (hst : job.status = .queued ∨ job.status = .error) :
    chainHolds actualEdge
      (job.status :: (process_job cfg id eff st).writes) = true
  ∧ (process_job cfg id eff st).writes.head? = some .processing
  ∧ (∀ s ∈ (process_job cfg id eff st).writes, s ≠ .queued)
  ∧ ((process_job cfg id eff st).state.queue ≠ st.queue →
      ((process_job cfg id eff st).state.store.find? id).map Job.status
        = some .error) := by
  have hex : ∃ j0, st.store.find? id = some j0 := by
    cases h : st.store.find? id with
    | none => simp [fetch_job, h] at hfetch
    | some j => exact ⟨j, rfl⟩
  obtain ⟨j0, hj0⟩ := hex
  unfold process_job
  rw [hfetch]
  dsimp only
  split
  · refine ⟨?_, rfl, ?_, ?_⟩
    · rcases hst with h | h <;> rw [h] <;> rfl
    · dsimp only
      decide
    · intro _
      simp [find?_update_self, hj0, applyUpdate]
  · split
    · refine ⟨?_, rfl, ?_, ?_⟩
      · rcases hst with h | h <;> rw [h] <;> rfl
      · dsimp only
        decide
      · intro hq
        exact absurd rfl hq
    · refine ⟨?_, rfl, ?_, ?_⟩
      · rcases hst with h | h <;> rw [h] <;> rfl
      · dsimp only
        decide
      · intro _
        simp [find?_update_self, hj0, applyUpdate]

/-- Witness for the amended C2 theorem at a concrete queued job whose
delivery fails. -/
theorem dispatchTransitionsAmendedWitness :
    chainHolds actualEdge (Status.queued ::
      (process_job cfgDefault 1 failEff
        ⟨⟨[(1, ⟨{ text := some "w" }, .queued, 0, none, 0, 0⟩)], 2⟩,
          []⟩).writes) = true := by
  have h := dispatchTransitionsAmended cfgDefault 1 failEff
    ⟨⟨[(1, ⟨{ text := some "w" }, .queued, 0, none, 0, 0⟩)], 2⟩, []⟩
    ⟨1, { text := some "w" }, .queued, 0⟩ rfl (Or.inl rfl)
  exact h.1

/-- C3 counterexample: update_job on an id absent from the store returns
silently and leaves the store unchanged; nothing is reported to the
caller (the operation has no error outcome at all). -/
theorem updateMissingCounterexample :
    Store.find? ⟨[], 1⟩ 1 = none
  ∧ update_job 1 ⟨some .done, none, none⟩ 5 ⟨[], 1⟩ = ⟨[], 1⟩ :=
  ⟨rfl, rfl⟩

/-- C3 amended: for a missing id, update_job silently leaves the store
unchanged (it does not fail loudly); for an existing id it applies
exactly the supplied partial update, always refreshes updated_at, and
touches no other row. -/
theorem updateJobAmended (id : Nat) (u : JobUpdate) (now : Nat)
    (st : Store) :
    (st.find? id = none → update_job id u now st = st)
  ∧ (∀ j, st.find? id = some j →
      (update_job id u now st).find? id
        = some ⟨j.payload, u.status.getD j.status, u.attempts.getD j.attempts,
            u.last_error.getD j.last_error, j.created_at, now⟩)
  ∧ (∀ id2, id2 ≠ id →
      (update_job id u now st).find? id2 = st.find? id2) := by
  refine ⟨update_job_missing id u now st, ?_, ?_⟩
  · intro j hj
    rw [find?_update_self, hj]
    rfl
  · intro id2 h2
    exact find?_update_ne id id2 u now st h2

/-- Witness for the amended C3 theorem: a concrete partial update on an
existing row overwrites status and last_error, keeps attempts and
created_at, and refreshes updated_at. -/
theorem updateJobAmendedWitness :
    (update_job 1 ⟨some .done, none, some none⟩ 9
        ⟨[(1, ⟨{ text := some "w" }, .error, 2, some "boom", 3, 4⟩)],
          2⟩).find? 1
      = some ⟨{ text := some "w" }, .done, 2, none, 3, 9⟩ := by
  have h := (updateJobAmended 1 ⟨some .done, none, some none⟩ 9
    ⟨[(1, ⟨{ text := some "w" }, .error, 2, some "boom", 3, 4⟩)], 2⟩).2.1
    ⟨{ text := some "w" }, .error, 2, some "boom", 3, 4⟩ rfl
  exact h

/-- C4 counterexample: a payload that does supply a text field (the empty
string) is nonetheless rejected by admission, so rejection is not
limited to payloads supplying neither text nor raw bytes. -/
theorem admissionEmptyTextCounterexample :
    print_endpoint { text := some "" } 0 emptyState
      = .error "no text or raw bytes provided"
  ∧ ({ text := some "" } : Payload).text ≠ none :=
  ⟨rfl, by decide⟩

/-- C4 amended: admission fails (with the invalid-payload error, creating
no job) exactly when the payload supplies neither a non-empty text string
nor a non-empty raw-bytes string; otherwise it persists a new row with
status queued, attempts 0, no last_error and fresh timestamps, appends
the new id to the work queue, and returns that id. -/
theorem admissionAmended (p : Payload) (now : Nat) (st : AgentState) :
    print_endpoint p now st
      = if truthyStr p.text || truthyStr p.raw_bytes_base64 then
          .ok (st.store.nextId,
            ⟨⟨st.store.rows
                ++ [(st.store.nextId, ⟨p, .queued, 0, none, now, now⟩)],
              st.store.nextId + 1⟩,
              st.queue ++ [st.store.nextId]⟩)
        else .error "no text or raw bytes provided" := by
  unfold print_endpoint enqueue_job_db
  cases ha : truthyStr p.text <;> cases hb : truthyStr p.raw_bytes_base64 <;>
    simp [ha, hb]

/-- C5: for every string, the encoder output is exactly the UTF-8
encoding, then the byte 0x0A, then the bytes 0x1D 0x56 0x31, and nothing
else. -/
theorem textEncoderExact (s : String) :
    render_text_to_escpos_bytes s = utf8 s ++ [0x0A] ++ [0x1D, 0x56, 0x31] :=
  rfl

/-- C6: for a raw-mode job whose base64 blob decodes successfully, the
byte buffer handed to the delivery transport is exactly the decoded
bytes. -/
theorem rawRoundTrip (cfg : Config) (id : Nat) (eff : Eff)
    (st : AgentState) (job : FetchedJob) (bs : List Nat)
    (hfetch : fetch_job st.store id = some job)
    (hmode : job.payload.mode = some "raw")
    (hraw : truthyStr job.payload.raw_bytes_base64 = true)
    (hdec : b64decode (job.payload.raw_bytes_base64.getD "") = some bs) :
    (process_job cfg id eff st).sent = some bs := by
  have hm : job.payload.mode.getD "text" = "raw" := by
    rw [hmode]
    rfl
  unfold process_job
  rw [hfetch]
  dsimp only
  rw [hm, if_pos ⟨rfl, hraw⟩, hdec]
  dsimp only
  split <;> rfl

/-- Witness for the C6 theorem: the blob aGk= decodes to the two bytes
104 105 and exactly those reach the transport. -/
theorem rawRoundTripWitness :
    (process_job cfgDefault 1 failEff
      ⟨⟨[(1, ⟨{ mode := some "raw", raw_bytes_base64 := some "aGk=" },
          .queued, 0, none, 0, 0⟩)], 2⟩, []⟩).sent = some [104, 105] := by
  have h := rawRoundTrip cfgDefault 1 failEff
    ⟨⟨[(1, ⟨{ mode := some "raw", raw_bytes_base64 := some "aGk=" },
        .queued, 0, none, 0, 0⟩)], 2⟩, []⟩
    ⟨1, { mode := some "raw", raw_bytes_base64 := some "aGk=" }, .queued, 0⟩
    [104, 105] rfl rfl rfl rfl
  exact h

/-- C7: for an existing id, reprint creates a brand-new job with the same
payload, status queued and attempts 0, under a fresh id different from
the original, and leaves every pre-existing row (the original included)
untouched; for a missing id it fails with not-found and creates
nothing. -/
theorem reprintSpec (id now : Nat) (st : AgentState)
    (hwf : st.store.wfB = true) :
    (fetch_job st.store id = none → reprint id now st = .error "not found")
  ∧ (∀ job, fetch_job st.store id = some job →
      reprint id now st
          = .ok (st.store.nextId, (enqueue_job_db job.payload now st).2)
        ∧ st.store.nextId ≠ id
        ∧ (enqueue_job_db job.payload now st).2.store.find? st.store.nextId
            = some ⟨job.payload, .queued, 0, none, now, now⟩
        ∧ (∀ id2, id2 ≠ st.store.nextId →
            (enqueue_job_db job.payload now st).2.store.find? id2
              = st.store.find? id2)) := by
  constructor
  · intro h
    unfold reprint
    rw [h]
  · intro job hj
    have hex : ∃ j0, st.store.find? id = some j0 := by
      cases h : st.store.find? id with
      | none => simp [fetch_job, h] at hj
      | some j => exact ⟨j, rfl⟩
    obtain ⟨j0, hj0⟩ := hex
    have hlt : id < st.store.nextId :=
      lookup_lt_of_all st.store.rows st.store.nextId id j0 hwf hj0
    refine ⟨?_, ?_, ?_, ?_⟩
    · unfold reprint
      rw [hj]
      rfl
    · intro he
      rw [he] at hlt
      exact Nat.lt_irrefl id hlt
    · have hnone : st.store.rows.lookup st.store.nextId = none :=
        lookup_none_of_all_lt st.store.rows st.store.nextId hwf
      simpa [Store.find?, enqueue_job_db] using
        lookup_append_self st.store.rows st.store.nextId
          ⟨job.payload, .queued, 0, none, now, now⟩ hnone
    · intro id2 h2
      simpa [Store.find?, enqueue_job_db] using
        lookup_append_ne st.store.rows id2 st.store.nextId
          ⟨job.payload, .queued, 0, none, now, now⟩ h2

/-- Witness for the C7 theorem: reprinting the only job of a concrete
store yields the fresh id 2, distinct from the original id 1. -/
theorem reprintSpecWitness :
    reprint 1 9
        ⟨⟨[(1, ⟨{ text := some "w" }, .done, 2, some "x", 3, 4⟩)], 2⟩, []⟩
      = .ok (2, (enqueue_job_db { text := some "w" } 9
          ⟨⟨[(1, ⟨{ text := some "w" }, .done, 2, some "x", 3, 4⟩)], 2⟩,
            []⟩).2)
  ∧ (2 : Nat) ≠ 1 := by
  have h := (reprintSpec 1 9
    ⟨⟨[(1, ⟨{ text := some "w" }, .done, 2, some "x", 3, 4⟩)], 2⟩, []⟩
    (by decide)).2 ⟨1, { text := some "w" }, .done, 2⟩ rfl
  exact ⟨h.1, h.2.1⟩

/-- C8: the recovery loader leaves the store untouched, appends to the
work queue exactly the ids of rows whose status is queued or error, and
enqueues them in ascending created_at order. -/
theorem recoveryLoaderSpec (st : AgentState) :
    (load_pending_jobs_into_queue st).store = st.store
  ∧ (load_pending_jobs_into_queue st).queue
      = st.queue ++ (sortedPending st.store).map Prod.fst
  ∧ (∀ r : Nat × Job, r ∈ sortedPending st.store ↔
      r ∈ st.store.rows ∧ (r.2.status = .queued ∨ r.2.status = .error))
  ∧ (sortedPending st.store).Pairwise byCreatedAt := by
  refine ⟨rfl, rfl, ?_, ?_⟩
  · intro r
    unfold sortedPending
    simp [List.mem_filter]
  · exact List.sorted_insertionSort byCreatedAt _

/-- C9: a payload whose text field is the empty string and which carries
no raw bytes is rejected at admission (truthiness, not presence, is
tested), whatever its mode and printer fields. -/
theorem emptyTextRejected (mode : Option String) (pr : Option PrinterTarget)
    (now : Nat) (st : AgentState) :
    print_endpoint ⟨mode, some "", none, pr⟩ now st
      = .error "no text or raw bytes provided" :=
  rfl

/-- C10: a job in raw mode whose raw-bytes field is absent or empty is
not rejected and not decoded: the bytes handed to the transport are the
text rendering of its text field, or of the placeholder when no text
field is present. -/
theorem rawFallbackToText (cfg : Config) (id : Nat) (eff : Eff)
    (st : AgentState) (job : FetchedJob)
    (hfetch : fetch_job st.store id = some job)
    (hmode : job.payload.mode = some "raw")
    (hraw : job.payload.raw_bytes_base64 = none
      ∨ job.payload.raw_bytes_base64 = some "") :
    (process_job cfg id eff st).sent
      = some (render_text_to_escpos_bytes
          (job.payload.text.getD "<no text>")) := by
  have hr : truthyStr job.payload.raw_bytes_base64 = false := by
    rcases hraw with h | h <;> rw [h] <;> rfl
  unfold process_job
  rw [hfetch]
  dsimp only
  rw [if_neg (fun hc => by rw [hr] at hc; cases hc.2)]
  dsimp only
  split <;> rfl

/-- Witness for the C10 theorem: a raw-mode job with an empty blob and no
text hands the rendering of the placeholder to the transport. -/
theorem rawFallbackToTextWitness :
    (process_job cfgDefault 1 failEff
      ⟨⟨[(1, ⟨{ mode := some "raw", raw_bytes_base64 := some "" },
          .queued, 0, none, 0, 0⟩)], 2⟩, []⟩).sent
      = some (render_text_to_escpos_bytes "<no text>") := by
  have h := rawFallbackToText cfgDefault 1 failEff
    ⟨⟨[(1, ⟨{ mode := some "raw", raw_bytes_base64 := some "" },
        .queued, 0, none, 0, 0⟩)], 2⟩, []⟩
    ⟨1, { mode := some "raw", raw_bytes_base64 := some "" }, .queued, 0⟩
    rfl rfl (Or.inr rfl)
  exact h

end PrinterAgent
